import Mathlib

/-!
Shallow embedding of the triggered-capture ingestion pipeline of
`src/maybe3.py` (repository AhmetCemalO/remer).

The script has two execution contexts:

* `main` (producer): pulls grab results from the camera, stamps each
  successful grab with the next frame id (`count += 1`), computes the
  capture timestamp (hardware timestamp divided by 1000 when the grab
  result has one, else host wall clock times 1000), and enqueues
  `(count, ts_ms, frame)` on a bounded FIFO queue; at shutdown it
  enqueues the terminal marker `None`.

* `writer_worker` (consumer): dequeues items in FIFO order until the
  terminal marker, rotating output windows: a new window is opened when
  no window is open or when `ts_ms - window_start >= WINDOW_MS`;
  rotation first flushes and closes the previous CSV handle, then makes
  the new image directory, opens the new CSV and writes the header row;
  each frame is saved as `frame_<id:06d>.png` in the window's image
  directory and one CSV row `[fid, ts, basename(img_dir)/fname]` is
  appended; on the terminal marker the open CSV is flushed and closed.

Modelling conventions:

* The script's floating-point millisecond timestamps are modelled as
  integer milliseconds (`Int`); every claim settled here depends only on
  ordering, subtraction and the microsecond-to-millisecond conversion,
  not on sub-millisecond fractions.
* Filesystem side effects are modelled as a trace (`List FsOp`) emitted
  by the writer in program order.
* `os.path.join a b` is string concatenation with `"/"`, and
  `os.path.basename (os.path.join out_dir d)` is `d` for the
  separator-free directory names `burst_<tag>` the script builds.
* The writer's nonlocal state `window_start`/`csv_fh`/`writer`/`img_dir`
  is all `None` before the first frame and afterwards is determined by
  the open window's start timestamp (paths are pure functions of
  `out_dir` and that start), so the writer state is `Option Ts`: the
  start timestamp of the open window, if any.
-/

namespace Maybe3

/-- Timestamps in (integer) milliseconds. -/
abbrev Ts := Int

/-- `QUEUE_LEN = 200` — frames buffered (maybe3.py line 5). -/
def QUEUE_LEN : Nat := 200

/-- `WINDOW_MS = 12_000` — rotate files every 12 seconds (maybe3.py line 6). -/
def WINDOW_MS : Ts := 12000

/-- A frame as enqueued by `main`: `(count, ts_ms, frame)` (line 93).
The image payload is opaque, modelled by a `Nat` tag. -/
structure Frame where
  fid : Nat
  ts : Ts
  payload : Nat
deriving DecidableEq

/-- Filesystem side effects of the writer thread, in program order. -/
inductive FsOp where
  /-- `os.makedirs(img_dir, exist_ok=True)` (line 25). -/
  | mkdir (path : String)
  /-- `open(csv_path, "w")` (line 28); `start` is the `window_start`
  assigned for this window (line 31). -/
  | openCsv (path : String) (start : Ts)
  /-- `writer.writerow(["frame_id", "timestamp_ms", "filename"])` (line 30). -/
  | writeHeader (path : String) (cols : List String)
  /-- `cv2.imwrite(os.path.join(img_dir, fname), frame)` (line 44). -/
  | writeImage (path : String) (payload : Nat)
  /-- `writer.writerow([fid, ts, os.path.join(basename(img_dir), fname)])` (line 45). -/
  | writeRow (csvPath : String) (fid : Nat) (tsMs : Ts) (filename : String)
  /-- `csv_fh.flush(); csv_fh.close()` (lines 19 and 49). -/
  | flushClose (path : String)
deriving DecidableEq

/-- Left-pad the decimal representation of `n` with zeros to width `w`,
as Python's `{n:0Nd}` format does. -/
def padZeros (w n : Nat) : String :=
  let s := toString n
  ⟨List.replicate (w - s.length) '0'⟩ ++ s

/-- The window tag `datetime.fromtimestamp(ts_ms/1000).strftime("%H%M%S_%f")[:-3]`
(lines 22-23): time of day with millisecond precision, derived from the
window's start timestamp (local time modelled as UTC). -/
def tsTag (tsMs : Ts) : String :=
  let totalMs : Nat := tsMs.toNat
  let s : Nat := totalMs / 1000
  padZeros 2 (s / 3600 % 24) ++ padZeros 2 (s / 60 % 60) ++ padZeros 2 (s % 60)
    ++ "_" ++ padZeros 3 (totalMs % 1000)

/-- Basename of the image directory: `f"burst_{ts_tag}"` (line 24). -/
def dirNameOf (st : Ts) : String := "burst_" ++ tsTag st

/-- `img_dir = os.path.join(out_dir, f"burst_{ts_tag}")` (line 24). -/
def imgDirOf (outDir : String) (st : Ts) : String := outDir ++ "/" ++ dirNameOf st

/-- `csv_path = os.path.join(out_dir, f"burst_{ts_tag}.csv")` (line 27). -/
def csvPathOf (outDir : String) (st : Ts) : String :=
  outDir ++ "/" ++ dirNameOf st ++ ".csv"

/-- The CSV header columns (line 30). -/
def headerCols : List String := ["frame_id", "timestamp_ms", "filename"]

/-- `fname = f"frame_{fid:06d}.png"` (line 43). -/
def fnameOf (fid : Nat) : String := "frame_" ++ padZeros 6 fid ++ ".png"

/-- Effects of `open_new_window(ts_ms)` (lines 16-32): flush and close
the previous CSV handle if one is open, then make the image directory,
open the new CSV and write the header row; the new `window_start` is `t`. -/
def openNewWindowOps (outDir : String) (cur : Option Ts) (t : Ts) : List FsOp :=
  (match cur with
   | none => []
   | some st => [FsOp.flushClose (csvPathOf outDir st)]) ++
  [FsOp.mkdir (imgDirOf outDir t),
   FsOp.openCsv (csvPathOf outDir t) t,
   FsOp.writeHeader (csvPathOf outDir t) headerCols]

/-- Effects of persisting one frame into the window that starts at `st`
(lines 43-45): write the image, then append the index row whose
`filename` field is relative to the session root. -/
def writeOps (outDir : String) (st : Ts) (f : Frame) : List FsOp :=
  [FsOp.writeImage (imgDirOf outDir st ++ "/" ++ fnameOf f.fid) f.payload,
   FsOp.writeRow (csvPathOf outDir st) f.fid f.ts (dirNameOf st ++ "/" ++ fnameOf f.fid)]

/-- One iteration of the writer loop on a frame item (lines 39-45):
rotate when no window is open or `ts_ms - window_start >= WINDOW_MS`,
then persist the frame; returns the open window's start and the emitted
effects. -/
def stepOps (outDir : String) (cur : Option Ts) (f : Frame) : Ts × List FsOp :=
  match cur with
  | none => (f.ts, openNewWindowOps outDir none f.ts ++ writeOps outDir f.ts f)
  | some st =>
    if WINDOW_MS ≤ f.ts - st then
      (f.ts, openNewWindowOps outDir (some st) f.ts ++ writeOps outDir f.ts f)
    else
      (st, writeOps outDir st f)

/-- The writer loop over the queued frame items that precede the
terminal marker (lines 35-46), in FIFO order; returns the final state
and the emitted effects. -/
def writerSteps (outDir : String) (cur : Option Ts) : List Frame → Option Ts × List FsOp
  | [] => (cur, [])
  | f :: fs =>
    let p := stepOps outDir cur f
    let rest := writerSteps outDir (some p.1) fs
    (rest.1, p.2 ++ rest.2)

/-- Effects of the drain epilogue after the terminal marker
(lines 48-49): flush and close the open CSV handle, if any. -/
def finalClose (outDir : String) (cur : Option Ts) : List FsOp :=
  match cur with
  | none => []
  | some st => [FsOp.flushClose (csvPathOf outDir st)]

/-- A complete `writer_worker` run: the queue holds `frames` followed by
the terminal marker `None`; the writer drains all of them and then
closes the open window. -/
def writerRun (outDir : String) (frames : List Frame) : List FsOp :=
  (writerSteps outDir none frames).2 ++ finalClose outDir (writerSteps outDir none frames).1

/-- A successful grab result as seen by `main` (lines 85-91): an opaque
image payload, plus the camera's microsecond hardware timestamp when the
grab result has a `TimeStamp` attribute. -/
structure Grab where
  hwTs : Option Ts
  payload : Nat
deriving DecidableEq

/-- The capture timestamp of a grab (lines 88-91): the hardware
timestamp divided by 1000 when present (`grab.TimeStamp / 1000.0`), else
the wall clock in seconds times 1000 (`time.time()*1000`). -/
def grabTs (g : Grab) (wallS : Ts) : Ts :=
  match g.hwTs with
  | some us => us / 1000
  | none => wallS * 1000

/-- The producer loop of `main` (lines 83-93) restricted to its data
effects: each iteration either yields no frame (timeout or failed grab)
or a successful grab paired with the wall-clock second at which it was
handled; on success `count` is incremented and `(count, ts_ms, frame)`
is enqueued. -/
def produce (count : Nat) : List (Option Grab × Ts) → List Frame
  | [] => []
  | (none, _) :: rest => produce count rest
  | (some g, w) :: rest =>
    { fid := count + 1, ts := grabTs g w, payload := g.payload } :: produce (count + 1) rest

/-- Number of successful grabs in a producer run. -/
def successCount (gs : List (Option Grab × Ts)) : Nat :=
  gs.countP (fun gw => gw.1.isSome)

/-- A CSV file handle: Python file objects may be closed more than once,
but `flush()` on a closed file raises `ValueError`. -/
structure Handle where
  closedFlag : Bool
deriving DecidableEq

/-- `csv_fh.flush()`: raises `ValueError` on a closed file. -/
def flushH (h : Handle) : Except String Handle :=
  if h.closedFlag then Except.error "I/O operation on closed file" else Except.ok h

/-- `csv_fh.close()`: marks the handle closed; legal on a closed file. -/
def closeH (_h : Handle) : Handle := { closedFlag := true }

/-- The script's close-window snippet `if csv_fh: csv_fh.flush();
csv_fh.close()` (lines 18-19 and 48-49), acting on the optional handle. -/
def closeWindowFh (fh : Option Handle) : Except String (Option Handle) :=
  match fh with
  | none => Except.ok none
  | some h => (flushH h).map (fun h2 => some (closeH h2))

/-- The index-row payload `(fid, ts)` of a trace event, if it is one. -/
def rowData : FsOp → Option (Nat × Ts)
  | FsOp.writeRow _ fid ts _ => some (fid, ts)
  | _ => none

/-- All index rows (frame id and timestamp) appended during a trace,
across all windows' index files, in order. -/
def rowsData (t : List FsOp) : List (Nat × Ts) := t.filterMap rowData

/-- The window start carried by a CSV-open event, if it is one. -/
def openStart : FsOp → Option Ts
  | FsOp.openCsv _ st => some st
  | _ => none

/-- The start timestamps of all windows opened during a trace, in order. -/
def opensOf (t : List FsOp) : List Ts := t.filterMap openStart

/-- Is this event the opening of a window's CSV file? -/
def isOpenEvt : FsOp → Bool := fun op => (openStart op).isSome

/-- Is this event the flush-and-close of a window's CSV file? -/
def isCloseEvt : FsOp → Bool
  | FsOp.flushClose _ => true
  | _ => false

/-- Net number of open CSV handles after the first `n` events of a
trace: opens minus closes. -/
def openAt (t : List FsOp) (n : Nat) : Int :=
  ((t.take n).countP isOpenEvt : Int) - ((t.take n).countP isCloseEvt : Int)

/-- Single-open-window discipline checker. Scans a trace carrying the
currently open CSV path: a CSV may be opened only when none is open;
header and index rows may target only the open CSV; `flushClose` must
close exactly the open CSV; directories are created only while no CSV is
open (i.e. the old window is closed strictly before the new window's
directory is made). Returns the final open path when the whole trace is
disciplined, `none` otherwise. -/
def fsScan (cur : Option String) : List FsOp → Option (Option String)
  | [] => some cur
  | FsOp.openCsv p _ :: rest => if cur = none then fsScan (some p) rest else none
  | FsOp.flushClose p :: rest => if cur = some p then fsScan none rest else none
  | FsOp.writeHeader p _ :: rest => if cur = some p then fsScan cur rest else none
  | FsOp.writeRow p _ _ _ :: rest => if cur = some p then fsScan cur rest else none
  | FsOp.mkdir _ :: rest => if cur = none then fsScan cur rest else none
  | FsOp.writeImage _ _ :: rest => fsScan cur rest

/-- Image-before-index checker: scanning the trace with the list of
image paths written so far, every index row's referenced artifact
(`outDir` joined with the row's session-root-relative filename) must
already have been written. -/
def rowsCovered (outDir : String) (written : List String) : List FsOp → Bool
  | [] => true
  | FsOp.writeImage p _ :: rest => rowsCovered outDir (p :: written) rest
  | FsOp.writeRow _ _ _ rel :: rest =>
    written.contains (outDir ++ "/" ++ rel) && rowsCovered outDir written rest
  | _ :: rest => rowsCovered outDir written rest

/-- Header-at-creation checker: every CSV-open event is immediately
followed by the header row of the same file with the expected columns,
and header rows occur nowhere else. -/
def headersAtCreation : List FsOp → Bool
  | [] => true
  | FsOp.openCsv p _ :: FsOp.writeHeader q cols :: rest =>
    p == q && cols == headerCols && headersAtCreation rest
  | FsOp.openCsv _ _ :: _ => false
  | FsOp.writeHeader _ _ :: _ => false
  | _ :: rest => headersAtCreation rest

/-! ## Helper lemmas -/

theorem rowsData_append (a b : List FsOp) : rowsData (a ++ b) = rowsData a ++ rowsData b :=
  List.filterMap_append a b rowData

theorem rowsData_stepOps (outDir : String) (cur : Option Ts) (f : Frame) :
    rowsData (stepOps outDir cur f).2 = [(f.fid, f.ts)] := by
  cases cur with
  | none => simp [stepOps, rowsData, openNewWindowOps, writeOps, rowData]
  | some st =>
    by_cases h : WINDOW_MS ≤ f.ts - st <;>
      simp [stepOps, h, rowsData, openNewWindowOps, writeOps, rowData]

theorem rowsData_writerSteps (outDir : String) (frames : List Frame) : ∀ cur : Option Ts,
    rowsData (writerSteps outDir cur frames).2 = frames.map (fun f => (f.fid, f.ts)) := by
  induction frames with
  | nil => intro cur; simp [writerSteps, rowsData]
  | cons f fs ih =>
    intro cur
    simp only [writerSteps, List.map_cons]
    rw [rowsData_append, rowsData_stepOps, ih]
    rfl

theorem rowsData_finalClose (outDir : String) (cur : Option Ts) :
    rowsData (finalClose outDir cur) = [] := by
  cases cur <;> simp [finalClose, rowsData, rowData]

theorem rowsData_writerRun (outDir : String) (frames : List Frame) :
    rowsData (writerRun outDir frames) = frames.map (fun f => (f.fid, f.ts)) := by
  unfold writerRun
  rw [rowsData_append, rowsData_writerSteps, rowsData_finalClose, List.append_nil]

theorem produce_map_fid (gs : List (Option Grab × Ts)) : ∀ c : Nat,
    (produce c gs).map Frame.fid = List.range' (c + 1) (successCount gs) := by
  induction gs with
  | nil => intro c; simp [produce, successCount]
  | cons gw rest ih =>
    intro c
    obtain ⟨g, w⟩ := gw
    cases g with
    | none => simpa [produce, successCount, List.countP_cons] using ih c
    | some g =>
      simp [produce, successCount, List.countP_cons, List.range'_succ]
      simpa [successCount] using ih (c + 1)

theorem fsScan_append (a b : List FsOp) : ∀ cur : Option String,
    fsScan cur (a ++ b) = (fsScan cur a).bind (fun c => fsScan c b) := by
  induction a with
  | nil => intro cur; simp [fsScan]
  | cons op rest ih =>
    intro cur
    cases op <;> simp only [List.cons_append, fsScan] <;>
      first
      | (split <;> simp [ih])
      | simp [ih]

theorem fsScan_stepOps (outDir : String) (cur : Option Ts) (f : Frame) :
    fsScan (cur.map (csvPathOf outDir)) (stepOps outDir cur f).2
      = some (some (csvPathOf outDir (stepOps outDir cur f).1)) := by
  cases cur with
  | none => simp [stepOps, openNewWindowOps, writeOps, fsScan]
  | some st =>
    by_cases h : WINDOW_MS ≤ f.ts - st <;>
      simp [stepOps, h, openNewWindowOps, writeOps, fsScan]

theorem fsScan_writerSteps (outDir : String) (frames : List Frame) : ∀ cur : Option Ts,
    fsScan (cur.map (csvPathOf outDir)) (writerSteps outDir cur frames).2
      = some ((writerSteps outDir cur frames).1.map (csvPathOf outDir)) := by
  induction frames with
  | nil => intro cur; simp [writerSteps, fsScan]
  | cons f fs ih =>
    intro cur
    simp only [writerSteps]
    rw [fsScan_append, fsScan_stepOps]
    simpa using ih (some (stepOps outDir cur f).1)

theorem fsScan_writerRun (outDir : String) (frames : List Frame) :
    fsScan none (writerRun outDir frames) = some none := by
  unfold writerRun
  rw [fsScan_append]
  have h := fsScan_writerSteps outDir frames none
  simp only [Option.map_none'] at h
  rw [h]
  cases hfin : (writerSteps outDir none frames).1 <;> simp [finalClose, fsScan]

theorem counts_writerSteps (outDir : String) (frames : List Frame) : ∀ cur : Option Ts,
    (writerSteps outDir cur frames).2.countP isOpenEvt
        + (if cur.isSome then 1 else 0)
      = (writerSteps outDir cur frames).2.countP isCloseEvt
        + (if (writerSteps outDir cur frames).1.isSome then 1 else 0) := by
  induction frames with
  | nil => intro cur; simp [writerSteps]
  | cons f fs ih =>
    intro cur
    have h := ih (some (stepOps outDir cur f).1)
    cases cur with
    | none =>
      simp only [writerSteps, List.countP_append] at h ⊢
      simp only [stepOps, openNewWindowOps, writeOps] at h ⊢
      simp [isOpenEvt, isCloseEvt, openStart, List.countP_cons] at h ⊢
      omega
    | some st =>
      by_cases hr : WINDOW_MS ≤ f.ts - st <;>
        · simp only [writerSteps, List.countP_append] at h ⊢
          simp only [stepOps, hr, if_pos, if_neg, openNewWindowOps, writeOps] at h ⊢
          simp [isOpenEvt, isCloseEvt, openStart, List.countP_cons, hr] at h ⊢
          omega

theorem img_path_eq (outDir : String) (st : Ts) (fid : Nat) :
    outDir ++ "/" ++ (dirNameOf st ++ "/" ++ fnameOf fid)
      = imgDirOf outDir st ++ "/" ++ fnameOf fid := by
  simp [imgDirOf, String.append_assoc]

theorem rowsCovered_stepOps (outDir : String) (cur : Option Ts) (f : Frame)
    (written : List String) (rest : List FsOp) :
    rowsCovered outDir written ((stepOps outDir cur f).2 ++ rest)
      = rowsCovered outDir
          ((imgDirOf outDir (stepOps outDir cur f).1 ++ "/" ++ fnameOf f.fid) :: written)
          rest := by
  cases cur with
  | none =>
    simp only [stepOps, openNewWindowOps, writeOps, List.nil_append, List.cons_append,
      rowsCovered, img_path_eq]
    simp
  | some st =>
    by_cases h : WINDOW_MS ≤ f.ts - st <;>
      · simp only [stepOps, h, if_pos, if_neg, openNewWindowOps, writeOps, List.nil_append,
          List.cons_append, rowsCovered, img_path_eq]
        simp

theorem rowsCovered_writerSteps (outDir : String) (frames : List Frame) :
    ∀ (cur : Option Ts) (written : List String) (tail : List FsOp),
      (∀ w : List String, rowsCovered outDir w tail = true) →
      rowsCovered outDir written ((writerSteps outDir cur frames).2 ++ tail) = true := by
  induction frames with
  | nil => intro cur written tail h; simpa [writerSteps] using h written
  | cons f fs ih =>
    intro cur written tail h
    simp only [writerSteps, List.append_assoc]
    rw [rowsCovered_stepOps]
    exact ih (some (stepOps outDir cur f).1) _ tail h

theorem rowsCovered_writerRun (outDir : String) (frames : List Frame) :
    rowsCovered outDir [] (writerRun outDir frames) = true := by
  unfold writerRun
  apply rowsCovered_writerSteps
  intro w
  cases (writerSteps outDir none frames).1 <;> simp [finalClose, rowsCovered]

theorem headersAtCreation_stepOps (outDir : String) (cur : Option Ts) (f : Frame)
    (rest : List FsOp) :
    headersAtCreation ((stepOps outDir cur f).2 ++ rest) = headersAtCreation rest := by
  cases cur with
  | none =>
    simp [stepOps, openNewWindowOps, writeOps, headersAtCreation]
  | some st =>
    by_cases h : WINDOW_MS ≤ f.ts - st <;>
      simp [stepOps, h, openNewWindowOps, writeOps, headersAtCreation]

theorem headersAtCreation_writerSteps (outDir : String) (frames : List Frame) :
    ∀ (cur : Option Ts) (rest : List FsOp),
      headersAtCreation ((writerSteps outDir cur frames).2 ++ rest)
        = headersAtCreation rest := by
  induction frames with
  | nil => intro cur rest; simp [writerSteps]
  | cons f fs ih =>
    intro cur rest
    simp only [writerSteps, List.append_assoc]
    rw [headersAtCreation_stepOps]
    exact ih (some (stepOps outDir cur f).1) rest

theorem headersAtCreation_writerRun (outDir : String) (frames : List Frame) :
    headersAtCreation (writerRun outDir frames) = true := by
  unfold writerRun
  rw [headersAtCreation_writerSteps]
  cases (writerSteps outDir none frames).1 <;> simp [finalClose, headersAtCreation]

theorem row_format_stepOps (outDir : String) (cur : Option Ts) (f : Frame)
    {p rel : String} {fid : Nat} {ts : Ts}
    (h : FsOp.writeRow p fid ts rel ∈ (stepOps outDir cur f).2) :
    ∃ st, p = csvPathOf outDir st ∧ rel = dirNameOf st ++ "/" ++ fnameOf fid := by
  cases cur with
  | none =>
    simp [stepOps, openNewWindowOps, writeOps] at h
    exact ⟨f.ts, h.1, by rw [h.2.1]; exact h.2.2.2⟩
  | some st =>
    by_cases hr : WINDOW_MS ≤ f.ts - st
    · simp [stepOps, hr, openNewWindowOps, writeOps] at h
      exact ⟨f.ts, h.1, by rw [h.2.1]; exact h.2.2.2⟩
    · simp [stepOps, hr, writeOps] at h
      exact ⟨st, h.1, by rw [h.2.1]; exact h.2.2.2⟩

theorem row_format_writerSteps (outDir : String) (frames : List Frame) :
    ∀ (cur : Option Ts) {p rel : String} {fid : Nat} {ts : Ts},
      FsOp.writeRow p fid ts rel ∈ (writerSteps outDir cur frames).2 →
      ∃ st, p = csvPathOf outDir st ∧ rel = dirNameOf st ++ "/" ++ fnameOf fid := by
  induction frames with
  | nil => intro cur p rel fid ts h; simp [writerSteps] at h
  | cons f fs ih =>
    intro cur p rel fid ts h
    simp only [writerSteps, List.mem_append] at h
    cases h with
    | inl h => exact row_format_stepOps outDir cur f h
    | inr h => exact ih (some (stepOps outDir cur f).1) h

theorem row_format_writerRun (outDir : String) (frames : List Frame)
    {p rel : String} {fid : Nat} {ts : Ts}
    (h : FsOp.writeRow p fid ts rel ∈ writerRun outDir frames) :
    ∃ st, p = csvPathOf outDir st ∧ rel = dirNameOf st ++ "/" ++ fnameOf fid := by
  unfold writerRun at h
  rw [List.mem_append] at h
  cases h with
  | inl h => exact row_format_writerSteps outDir frames none h
  | inr h =>
    exfalso
    cases hfin : (writerSteps outDir none frames).1 <;> simp [finalClose, hfin] at h

theorem header_cols_stepOps (outDir : String) (cur : Option Ts) (f : Frame)
    {p : String} {cols : List String}
    (h : FsOp.writeHeader p cols ∈ (stepOps outDir cur f).2) : cols = headerCols := by
  cases cur with
  | none =>
    simp [stepOps, openNewWindowOps, writeOps] at h
    exact h.2
  | some st =>
    by_cases hr : WINDOW_MS ≤ f.ts - st
    · simp [stepOps, hr, openNewWindowOps, writeOps] at h
      exact h.2
    · simp [stepOps, hr, writeOps] at h

theorem header_cols_writerSteps (outDir : String) (frames : List Frame) :
    ∀ (cur : Option Ts) {p : String} {cols : List String},
      FsOp.writeHeader p cols ∈ (writerSteps outDir cur frames).2 → cols = headerCols := by
  induction frames with
  | nil => intro cur p cols h; simp [writerSteps] at h
  | cons f fs ih =>
    intro cur p cols h
    simp only [writerSteps, List.mem_append] at h
    cases h with
    | inl h => exact header_cols_stepOps outDir cur f h
    | inr h => exact ih (some (stepOps outDir cur f).1) h

theorem header_cols_writerRun (outDir : String) (frames : List Frame)
    {p : String} {cols : List String}
    (h : FsOp.writeHeader p cols ∈ writerRun outDir frames) : cols = headerCols := by
  unfold writerRun at h
  rw [List.mem_append] at h
  cases h with
  | inl h => exact header_cols_writerSteps outDir frames none h
  | inr h =>
    exfalso
    cases hfin : (writerSteps outDir none frames).1 <;> simp [finalClose, hfin] at h

theorem opensOf_append (a b : List FsOp) : opensOf (a ++ b) = opensOf a ++ opensOf b :=
  List.filterMap_append a b openStart

theorem opens_chain_writerSteps (outDir : String) (frames : List Frame) : ∀ cur : Option Ts,
    List.Chain' (· < ·) (cur.toList ++ opensOf (writerSteps outDir cur frames).2) := by
  induction frames with
  | nil => intro cur; cases cur <;> simp [writerSteps, opensOf]
  | cons f fs ih =>
    intro cur
    cases cur with
    | none =>
      have h := ih (some (stepOps outDir none f).1)
      simp only [writerSteps, opensOf_append, stepOps] at h ⊢
      simpa [opensOf, openNewWindowOps, writeOps, openStart] using h
    | some st =>
      by_cases hr : WINDOW_MS ≤ f.ts - st
      · have hlt : st < f.ts := by
          have hr2 : (12000 : Int) ≤ f.ts - st := hr
          linarith
        have h := ih (some (stepOps outDir (some st) f).1)
        simp only [stepOps, hr, if_pos] at h
        simp only [writerSteps, opensOf_append, stepOps, hr, if_pos]
        simp [opensOf, openNewWindowOps, writeOps, openStart, List.chain'_cons] at h ⊢
        exact ⟨hlt, h⟩
      · have h := ih (some (stepOps outDir (some st) f).1)
        simp only [writerSteps, opensOf_append, stepOps, hr, if_neg, not_false_iff] at h ⊢
        simpa [opensOf, writeOps, openStart] using h

theorem opens_chain_writerRun (outDir : String) (frames : List Frame) :
    List.Chain' (· < ·) (opensOf (writerRun outDir frames)) := by
  have h := opens_chain_writerSteps outDir frames none
  unfold writerRun
  rw [opensOf_append]
  have hfc : opensOf (finalClose outDir (writerSteps outDir none frames).1) = [] := by
    cases (writerSteps outDir none frames).1 <;> simp [finalClose, opensOf, openStart]
  rw [hfc, List.append_nil]
  simpa using h

/-! ## Claims -/

/-- C1 (drain completeness): in a run where `frames` are accepted and
enqueued, followed by the terminal marker, once the writer terminates the
number of index rows appended across all windows' index files combined
equals the number of frames enqueued — every frame buffered before the
marker is persisted and none is discarded by draining. -/
theorem drain_completeness (outDir : String) (frames : List Frame) :
    (rowsData (writerRun outDir frames)).length = frames.length := by
  rw [rowsData_writerRun]
  exact List.length_map frames _

/-- C2 (rotation condition): a writer step on a frame emits a
window-opening event if and only if no window is open or the frame's
timestamp minus the open window's start is at least `WINDOW_MS`; in the
remaining case the step writes the frame into the currently open window
and leaves its start unchanged. -/
theorem rotation_condition (outDir : String) (cur : Option Ts) (f : Frame) :
    ((∃ p st0, FsOp.openCsv p st0 ∈ (stepOps outDir cur f).2) ↔
      (cur = none ∨ ∃ st, cur = some st ∧ WINDOW_MS ≤ f.ts - st))
    ∧ (∀ st, cur = some st → f.ts - st < WINDOW_MS →
        stepOps outDir cur f = (st, writeOps outDir st f)) := by
  constructor
  · cases cur with
    | none => simp [stepOps, openNewWindowOps, writeOps]
    | some st =>
      by_cases h : WINDOW_MS ≤ f.ts - st
      · simp [stepOps, h, openNewWindowOps, writeOps]
      · simp [stepOps, h, writeOps]
  · intro st hcur hlt
    subst hcur
    simp only [stepOps]
    rw [if_neg (not_le.mpr hlt)]

/-- Witness for C2: with a window open since timestamp 0, a frame at
timestamp 5000 does not rotate and is written into that window. -/
theorem rotation_condition_witness :
    ({ fid := 2, ts := 5000, payload := 9 } : Frame).ts - 0 < WINDOW_MS
    ∧ stepOps "o" (some 0) { fid := 2, ts := 5000, payload := 9 }
        = (0, writeOps "o" 0 { fid := 2, ts := 5000, payload := 9 }) :=
  ⟨by decide,
   (rotation_condition "o" (some 0) { fid := 2, ts := 5000, payload := 9 }).2 0 rfl (by decide)⟩

/-- C3 (frame id assignment): over any producer run, the ids assigned to
accepted frames at enqueue time are exactly `1, 2, 3, …` up to the number
of successful grabs — contiguous, strictly increasing, none skipped,
duplicated or reused. -/
theorem frame_ids_contiguous (gs : List (Option Grab × Ts)) :
    (produce 0 gs).map Frame.fid = List.range' 1 (successCount gs) :=
  produce_map_fid gs 0

/-- C4 (image-before-index): in every writer run, each index row is
appended only after the image artifact it references has been written
(scanning the trace in order, every row's referenced path is already
among the written images), and the rows across all windows are exactly
one per enqueued frame, in order. -/
theorem image_before_index (outDir : String) (frames : List Frame) :
    rowsCovered outDir [] (writerRun outDir frames) = true
    ∧ rowsData (writerRun outDir frames) = frames.map (fun f => (f.fid, f.ts)) :=
  ⟨rowsCovered_writerRun outDir frames, rowsData_writerRun outDir frames⟩

/-- C5 (rotation ordering): every writer run obeys the single-open-window
file discipline — in particular a new window's directory is created and
its CSV opened only after the previous CSV was flushed and closed; a
rotating step emits exactly flush-close of the old CSV, then mkdir,
CSV-open and header of the new window, then the frame's image and row;
and the very first frame's step emits no flush-close at all. -/
theorem rotation_ordering (outDir : String) (frames : List Frame) (f : Frame) (st : Ts) :
    fsScan none (writerRun outDir frames) = some none
    ∧ (WINDOW_MS ≤ f.ts - st →
        (stepOps outDir (some st) f).2
          = FsOp.flushClose (csvPathOf outDir st)
              :: FsOp.mkdir (imgDirOf outDir f.ts)
              :: FsOp.openCsv (csvPathOf outDir f.ts) f.ts
              :: FsOp.writeHeader (csvPathOf outDir f.ts) headerCols
              :: writeOps outDir f.ts f)
    ∧ (stepOps outDir none f).2
        = FsOp.mkdir (imgDirOf outDir f.ts)
            :: FsOp.openCsv (csvPathOf outDir f.ts) f.ts
            :: FsOp.writeHeader (csvPathOf outDir f.ts) headerCols
            :: writeOps outDir f.ts f := by
  refine ⟨fsScan_writerRun outDir frames, fun h => ?_, ?_⟩
  · simp [stepOps, h, openNewWindowOps]
  · simp [stepOps, openNewWindowOps]

/-- Witness for C5: a frame at timestamp 20000 rotates a window opened at
timestamp 0 and the step's effects are exactly close-then-create. -/
theorem rotation_ordering_witness :
    WINDOW_MS ≤ ({ fid := 2, ts := 20000, payload := 3 } : Frame).ts - 0
    ∧ (stepOps "o" (some 0) { fid := 2, ts := 20000, payload := 3 }).2
        = FsOp.flushClose (csvPathOf "o" 0)
            :: FsOp.mkdir (imgDirOf "o" 20000)
            :: FsOp.openCsv (csvPathOf "o" 20000) 20000
            :: FsOp.writeHeader (csvPathOf "o" 20000) headerCols
            :: writeOps "o" 20000 { fid := 2, ts := 20000, payload := 3 } :=
  ⟨by decide,
   (rotation_ordering "o" [] { fid := 2, ts := 20000, payload := 3 } 0).2.1 (by decide)⟩

/-- C6 (sink write format): in every writer run, each index row's
filename field is the paired image subdirectory name joined with
`frame_<id zero-padded to width 6>.png` and its CSV is the window's index
file; every header row has exactly the columns
`frame_id, timestamp_ms, filename`; each window's header is written
exactly once, immediately at window creation; and the data rows are one
per frame with the frame's id and timestamp. -/
theorem sink_write_format (outDir : String) (frames : List Frame) :
    (∀ (p : String) (fid : Nat) (ts : Ts) (rel : String),
        FsOp.writeRow p fid ts rel ∈ writerRun outDir frames →
        ∃ st, p = csvPathOf outDir st ∧ rel = dirNameOf st ++ "/" ++ fnameOf fid)
    ∧ (∀ (p : String) (cols : List String),
        FsOp.writeHeader p cols ∈ writerRun outDir frames → cols = headerCols)
    ∧ headersAtCreation (writerRun outDir frames) = true
    ∧ rowsData (writerRun outDir frames) = frames.map (fun f => (f.fid, f.ts)) :=
  ⟨fun _ _ _ _ h => row_format_writerRun outDir frames h,
   fun _ _ h => header_cols_writerRun outDir frames h,
   headersAtCreation_writerRun outDir frames,
   rowsData_writerRun outDir frames⟩

/-- Witness for C6: the concrete one-frame run at timestamp 0 contains
the expected row and header, and the format conclusions hold for them. -/
theorem sink_write_format_witness :
    (FsOp.writeRow "o/burst_000000_000.csv" 1 0 "burst_000000_000/frame_000001.png"
        ∈ writerRun "o" [{ fid := 1, ts := 0, payload := 7 }])
    ∧ (∃ st, ("o/burst_000000_000.csv" : String) = csvPathOf "o" st
        ∧ ("burst_000000_000/frame_000001.png" : String) = dirNameOf st ++ "/" ++ fnameOf 1)
    ∧ (FsOp.writeHeader "o/burst_000000_000.csv" ["frame_id", "timestamp_ms", "filename"]
        ∈ writerRun "o" [{ fid := 1, ts := 0, payload := 7 }])
    ∧ (["frame_id", "timestamp_ms", "filename"] : List String) = headerCols :=
  ⟨by decide,
   (sink_write_format "o" [{ fid := 1, ts := 0, payload := 7 }]).1
     "o/burst_000000_000.csv" 1 0 "burst_000000_000/frame_000001.png" (by decide),
   by decide,
   (sink_write_format "o" [{ fid := 1, ts := 0, payload := 7 }]).2.1
     "o/burst_000000_000.csv" ["frame_id", "timestamp_ms", "filename"] (by decide)⟩

/-- C7 counterexample: the claim says exactly one window is open at any
time within a session, but before the first event of a session that
persists a frame, zero CSV handles are open. -/
theorem single_open_window_cex :
    openAt (writerRun "out" [{ fid := 1, ts := 0, payload := 0 }]) 0 ≠ 1 := by decide

/-- C7 (amended — single open window): at most one window is open at any
time — every writer run passes the single-open-window discipline scan
(a CSV opens only when none is open, rows and headers target only the
open CSV, close targets exactly the open CSV) and ends with no window
open; and a window, once closed, is never reopened: window start
timestamps are strictly increasing, so no window identity recurs. -/
theorem single_open_window_amended (outDir : String) (frames : List Frame) :
    fsScan none (writerRun outDir frames) = some none
    ∧ List.Chain' (· < ·) (opensOf (writerRun outDir frames)) :=
  ⟨fsScan_writerRun outDir frames, opens_chain_writerRun outDir frames⟩

/-- C8 counterexample: a grab carrying a hardware timestamp of 5000000 µs
and a grab with no hardware timestamp handled at wall-clock second 5
produce identical enqueued frames — the fallback is not logged at the
data level and a substituted timestamp is indistinguishable from a real
hardware timestamp. -/
theorem timestamp_fallback_cex :
    produce 0 [(some { hwTs := some 5000000, payload := 7 }, 0)]
      = produce 0 [(some { hwTs := none, payload := 7 }, 5)] := by decide

/-- C8 (amended — timestamp fallback): the capture timestamp is the
hardware timestamp converted to milliseconds when available, else the
host wall clock in milliseconds at enqueue time; the substitution never
fails the frame and is deterministic, but it is not logged — the
enqueued data does not distinguish a substituted timestamp from a
hardware one. -/
theorem timestamp_fallback_amended (g : Grab) (w : Ts) :
    (∀ us, g.hwTs = some us → grabTs g w = us / 1000)
    ∧ (g.hwTs = none → grabTs g w = w * 1000) := by
  constructor
  · intro us h; simp [grabTs, h]
  · intro h; simp [grabTs, h]

/-- Witness for C8 (amended) at concrete grabs. -/
theorem timestamp_fallback_amended_witness :
    grabTs { hwTs := some 2000, payload := 1 } 3 = 2000 / 1000
    ∧ grabTs { hwTs := none, payload := 1 } 3 = 3 * 1000 :=
  ⟨(timestamp_fallback_amended { hwTs := some 2000, payload := 1 } 3).1 2000 rfl,
   (timestamp_fallback_amended { hwTs := none, payload := 1 } 3).2 rfl⟩

/-- C9 counterexample: running the script's close snippet
(`if csv_fh: csv_fh.flush(); csv_fh.close()`) a second time on the same
window's handle raises `ValueError` — `flush()` on a closed Python file
is an error — so the close is not idempotent. -/
theorem idempotent_close_cex :
    (closeWindowFh (some { closedFlag := false })).bind closeWindowFh
      = Except.error "I/O operation on closed file" := rfl

/-- C9 (amended — close discipline): a second close of an already-closed
window raises an error at the `flush()` call (it appends no index row and
changes nothing on disk, as `closeWindowFh` performs no write); within
any actual run the writer flushes and closes handles exactly as many
times as it opens them, so each window is closed exactly once and the
double close never occurs; closing when no window was ever opened is a
no-op. -/
theorem close_exactly_once (outDir : String) (frames : List Frame) :
    (writerRun outDir frames).countP isCloseEvt = (writerRun outDir frames).countP isOpenEvt
    ∧ closeWindowFh none = Except.ok none := by
  constructor
  · have h := counts_writerSteps outDir frames none
    unfold writerRun
    cases hfin : (writerSteps outDir none frames).1 <;>
      · rw [hfin] at h
        simp only [List.countP_append, hfin]
        simp [finalClose, isOpenEvt, isCloseEvt, openStart] at h ⊢
        omega
  · rfl

/-- C10 (zero-frame drain): when the terminal marker is the first item
the writer receives, the run emits no effect at all — no directory, no
CSV, no header and no image. -/
theorem zero_frame_drain (outDir : String) : writerRun outDir [] = [] := rfl

end Maybe3
